import Mathlib

/-!
Verification of the Modbus TCP register bridge (`src/main.rs`).

The program keeps a `SharedState` of three address-keyed maps (holding
registers, input registers, coils), serves six Modbus request kinds against
it (`ModbusService::call`), and runs a periodic simulation loop that reads
the heater coil, steps an external thermal model, and publishes scaled
outputs back into the holding registers.

The Rust `HashMap<u16, _>` is embedded as an association list with a
replacing insert and a first-match lookup, which is observationally the
HashMap. `u16` arithmetic (`addr + i` in the read/write loops, `as u16`
casts) is embedded over `Nat` with an explicit `% 65536`, the wrap-around
of release-mode Rust. `f64` model outputs are embedded as `ℚ`; the
`(x * 100.0) as u16` cast truncates toward zero and saturates, which on
`ℚ` is `min 65535 ⌊x * 100⌋.toNat`.
-/

namespace ModbusServer

/-- One binding per key: insert drops any previous binding for the key and
puts the new one in front, mirroring `HashMap::insert`. -/
def hmInsert {α : Type} (m : List (Nat × α)) (k : Nat) (v : α) : List (Nat × α) :=
  (k, v) :: m.filter (fun p => p.1 != k)

/-- Key lookup, mirroring `HashMap::get`. -/
def hmGet {α : Type} (m : List (Nat × α)) (k : Nat) : Option α :=
  m.lookup k

/-- Shared state between Modbus server and simulation (`struct SharedState`,
`src/main.rs:36-43`): holding registers, input registers and coils, each a
map from a 16-bit address. -/
structure SharedState where
  holding_registers : List (Nat × Nat)
  input_registers : List (Nat × Nat)
  coils : List (Nat × Bool)
deriving DecidableEq

/-- `SharedState::new` (`src/main.rs:46-52`): all three maps empty. -/
def SharedState.new : SharedState :=
  { holding_registers := [], input_registers := [], coils := [] }

/-- `struct RegisterMapping` (`src/main.rs:17-20`). -/
structure RegisterMapping where
  temperature_address : Nat
  heater_state_address : Nat

/-- `struct ModbusConfig` (`src/main.rs:10-14`). -/
structure ModbusConfig where
  port : Nat
  update_interval_ms : Nat
  registers : RegisterMapping

/-- `impl Default for ModbusConfig` (`src/main.rs:22-33`). -/
def ModbusConfig.default : ModbusConfig :=
  { port := 5502
    update_interval_ms := 100
    registers := { temperature_address := 40001, heater_state_address := 40002 } }

/-- The decoded Modbus requests of `tokio_modbus::prelude::Request`.  The
service supports six of them; the rest fall into the catch-all arm of
`ModbusService::call` (`src/main.rs:124`). -/
inductive Request where
  | readCoils (addr count : Nat)
  | readDiscreteInputs (addr count : Nat)
  | readHoldingRegisters (addr count : Nat)
  | readInputRegisters (addr count : Nat)
  | writeSingleCoil (addr : Nat) (value : Bool)
  | writeSingleRegister (addr value : Nat)
  | writeMultipleCoils (addr : Nat) (values : List Bool)
  | writeMultipleRegisters (addr : Nat) (values : List Nat)
  | maskWriteRegister (addr andMask orMask : Nat)
  | readWriteMultipleRegisters (readAddr readCount writeAddr : Nat) (values : List Nat)
  | custom (code : Nat) (bytes : List Nat)
  | disconnect
deriving DecidableEq

/-- The response variants of `tokio_modbus::prelude::Response` the service
produces. -/
inductive Response where
  | readCoils (values : List Bool)
  | readHoldingRegisters (values : List Nat)
  | readInputRegisters (values : List Nat)
  | writeSingleCoil (addr : Nat) (value : Bool)
  | writeSingleRegister (addr value : Nat)
  | writeMultipleRegisters (addr count : Nat)
deriving DecidableEq

/-- The one Modbus exception the service raises (`src/main.rs:124`). -/
inductive ModbusException where
  | illegalFunction
deriving DecidableEq

/-- The read loop of `ModbusService::call` (`src/main.rs:74-78`, `85-89`,
`110-114`): `count` values at `addr + i` (u16 addition, hence `% 65536`),
a missing address giving the default (`unwrap_or(0)` / `unwrap_or(false)`). -/
def readSeq {α : Type} (m : List (Nat × α)) (d : α) (addr count : Nat) : List α :=
  (List.range count).map (fun i => (hmGet m ((addr + i) % 65536)).getD d)

/-- The write loop of the `WriteMultipleRegisters` arm (`src/main.rs:101-103`):
`insert(addr + i as u16, value)` for each value in order, `i` counting from 0.
`i as u16` is `i % 65536` and the u16 sum wraps again. -/
def writeRegs (m : List (Nat × Nat)) (addr i : Nat) : List Nat → List (Nat × Nat)
  | [] => m
  | v :: vs => writeRegs (hmInsert m ((addr + i % 65536) % 65536) v) addr (i + 1) vs

/-- `ModbusService::call` (`src/main.rs:66-127`), as a state transformer:
the lock serializes the body, so each request is a function from the store
to the new store and the `Result<Response, Exception>`. -/
def ModbusService.call (st : SharedState) : Request → SharedState × Except ModbusException Response
  | .readHoldingRegisters addr count =>
      (st, .ok (.readHoldingRegisters (readSeq st.holding_registers 0 addr count)))
  | .readInputRegisters addr count =>
      (st, .ok (.readInputRegisters (readSeq st.input_registers 0 addr count)))
  | .writeSingleRegister addr value =>
      ({ st with holding_registers := hmInsert st.holding_registers addr value },
       .ok (.writeSingleRegister addr value))
  | .writeMultipleRegisters addr values =>
      ({ st with holding_registers := writeRegs st.holding_registers addr 0 values },
       .ok (.writeMultipleRegisters addr (values.length % 65536)))
  | .readCoils addr count =>
      (st, .ok (.readCoils (readSeq st.coils false addr count)))
  | .writeSingleCoil addr value =>
      ({ st with coils := hmInsert st.coils addr value },
       .ok (.writeSingleCoil addr value))
  | _ => (st, .error .illegalFunction)

/-- The six request kinds `ModbusService::call` handles; everything else
reaches the catch-all arm. -/
def Request.supported : Request → Bool
  | .readHoldingRegisters _ _ => true
  | .readInputRegisters _ _ => true
  | .writeSingleRegister _ _ => true
  | .writeMultipleRegisters _ _ => true
  | .readCoils _ _ => true
  | .writeSingleCoil _ _ => true
  | _ => false

/-- The register seeding of `main` (`src/main.rs:237-242`), performed on the
fresh store before the simulation task is spawned and before the TCP server
starts serving: temperature register 25000 (250.0 K scaled), heater-state
register 0, heater-control coil 0 false. -/
def initState (cfg : ModbusConfig) : SharedState :=
  let s := SharedState.new
  let s := { s with holding_registers :=
               hmInsert s.holding_registers cfg.registers.temperature_address 25000 }
  let s := { s with holding_registers :=
               hmInsert s.holding_registers cfg.registers.heater_state_address 0 }
  { s with coils := hmInsert s.coils 0 false }

/-- The `(x * 100.0) as u16` scaling of `simulation_loop`
(`src/main.rs:194`, `201`): a float-to-u16 `as` cast truncates toward zero
and saturates into `0..=65535`, so over `ℚ` it is `min 65535 ⌊x * 100⌋.toNat`
(`Int.toNat` sends the negative truncations to 0). -/
def encodeScaled (v : ℚ) : Nat :=
  min 65535 (⌊v * 100⌋).toNat

/-- The decoding direction of the scaling convention: register word back to
the physical value, `w / 100`. -/
def decodeScaled (w : Nat) : ℚ :=
  (w : ℚ) / 100

/-- Modelled from the spec: the encoding the spec claims the loop uses,
`round(value * 100)` put into a register word. Written only to be compared
with `encodeScaled`, the encoding the source actually performs. -/
def specRoundEncode (v : ℚ) : Nat :=
  min 65535 (round (v * 100)).toNat

/-- The Process Model boundary (`SimpleThermalComponent` of the external
`modelica_rust_ffi` crate): an opaque stepper over some state type with the
named fallible operations `simulation_loop` invokes. Model failures are the
`Except.error` results. -/
structure ModelInterface (σ : Type) where
  set_bool_input : σ → String → Bool → Except String σ
  step : σ → ℚ → Except String σ
  get_output : σ → String → Except String ℚ

/-- One tick of `simulation_loop` (`src/main.rs:165-216`): read coil 0
(default false), push it into the model input "heaterOn", step by
`dt = update_interval_ms / 1000` seconds, read outputs "temperature" and
"heaterStatus", and insert their scaled encodings at the configured
holding-register addresses. Each `expect` is an `Except.error` that aborts
the tick. -/
def simulationTick {σ : Type} (M : ModelInterface σ) (cfg : ModbusConfig)
    (st : SharedState) (m : σ) : Except String (SharedState × σ) := do
  let heater_on := (hmGet st.coils 0).getD false
  let m ← M.set_bool_input m "heaterOn" heater_on
  let m ← M.step m ((cfg.update_interval_ms : ℚ) / 1000)
  let temperature ← M.get_output m "temperature"
  let heater_status ← M.get_output m "heaterStatus"
  let st := { st with holding_registers := hmInsert st.holding_registers cfg.registers.temperature_address (encodeScaled temperature) }
  let st := { st with holding_registers := hmInsert st.holding_registers cfg.registers.heater_state_address (encodeScaled heater_status) }
  pure (st, m)

/-- The `loop` of `simulation_loop` for a given number of ticks: each tick
runs in full or aborts the whole run with its error, so a failed tick is
never skipped, retried, or followed by further publishing. -/
def simulationRun {σ : Type} (M : ModelInterface σ) (cfg : ModbusConfig) :
    Nat → SharedState → σ → Except String (SharedState × σ)
  | 0, st, m => pure (st, m)
  | n + 1, st, m => do
    let r ← simulationTick M cfg st m
    simulationRun M cfg n r.1 r.2

/-- A model whose every operation succeeds, with constant outputs:
temperature 300 K, heaterStatus 1. Used to instantiate tick theorems. -/
def constModel : ModelInterface Unit where
  set_bool_input _ _ _ := .ok ()
  step _ _ := .ok ()
  get_output _ name := if name = "temperature" then .ok 300 else .ok 1

/-- A model whose `step` fails, as when the FFI stepper returns `Err`:
the `expect` at `src/main.rs:180-181` then aborts the tick. -/
def failingStepModel : ModelInterface Unit where
  set_bool_input _ _ _ := .ok ()
  step _ _ := .error "Failed to step simulation"
  get_output _ _ := .ok 0

theorem lookup_filter_ne {α : Type} (m : List (Nat × α)) (a k : Nat) (h : a ≠ k) :
    (m.filter (fun p => p.1 != k)).lookup a = m.lookup a := by
  induction m with
  | nil => rfl
  | cons p m ih =>
    by_cases hp : p.1 = k
    · have ha : (a == k) = false := by simp [h]
      simp [List.filter_cons, hp, List.lookup, ha, ih]
    · simp [List.filter_cons, hp, List.lookup, ih]

theorem hmGet_insert_self {α : Type} (m : List (Nat × α)) (k : Nat) (v : α) :
    hmGet (hmInsert m k v) k = some v := by
  simp [hmGet, hmInsert, List.lookup]

theorem hmGet_insert_ne {α : Type} (m : List (Nat × α)) (k a : Nat) (v : α) (h : a ≠ k) :
    hmGet (hmInsert m k v) a = hmGet m a := by
  have ha : (a == k) = false := by simp [h]
  simp [hmGet, hmInsert, List.lookup, ha, lookup_filter_ne m a k h]

theorem readSeq_length {α : Type} (m : List (Nat × α)) (d : α) (addr count : Nat) :
    (readSeq m d addr count).length = count := by
  simp [readSeq]

theorem readSeq_getElem {α : Type} (m : List (Nat × α)) (d : α) (addr count i : Nat)
    (h : i < count) :
    (readSeq m d addr count)[i]? = some ((hmGet m ((addr + i) % 65536)).getD d) := by
  simp [readSeq, List.getElem?_range, h]

theorem writeRegs_frame (vs : List Nat) (m : List (Nat × Nat)) (addr i a : Nat)
    (h : ∀ j, j < vs.length → a ≠ (addr + (i + j) % 65536) % 65536) :
    hmGet (writeRegs m addr i vs) a = hmGet m a := by
  induction vs generalizing m i with
  | nil => rfl
  | cons v vs ih =>
    have h0 : a ≠ (addr + i % 65536) % 65536 := by
      have := h 0 (by simp)
      simpa using this
    rw [writeRegs, ih (hmInsert m ((addr + i % 65536) % 65536) v) (i + 1) ?_,
      hmGet_insert_ne _ _ _ _ h0]
    intro j hj
    have := h (j + 1) (by simpa using Nat.succ_lt_succ hj)
    have hshift : i + (j + 1) = i + 1 + j := by omega
    rwa [hshift] at this

theorem writeRegs_lookup (vs : List Nat) (m : List (Nat × Nat)) (addr i j : Nat)
    (hle : addr + i + vs.length ≤ 65536) (hj : j < vs.length) :
    hmGet (writeRegs m addr i vs) (addr + i + j) = some vs[j] := by
  induction vs generalizing m i j with
  | nil => exact absurd hj (by simp)
  | cons v vs ih =>
    have hA : (addr + i % 65536) % 65536 = addr + i := by
      simp at hle; omega
    cases j with
    | zero =>
      rw [writeRegs, hA]
      simp only [Nat.add_zero]
      rw [writeRegs_frame vs _ addr (i + 1) (addr + i) ?_]
      · simpa using hmGet_insert_self m (addr + i) v
      · intro j hj2
        have hlt : addr + (i + 1 + j) < 65536 := by simp at hle; omega
        have : (addr + (i + 1 + j) % 65536) % 65536 = addr + (i + 1 + j) := by omega
        rw [this]
        omega
    | succ j =>
      rw [writeRegs, hA]
      have hstep : addr + i + (j + 1) = addr + (i + 1) + j := by omega
      rw [hstep, ih (hmInsert m (addr + i) v) (i + 1) j (by simp at hle; omega) (by simpa using hj)]
      simp

/-- C1: for every store and every address never written (unmapped in the
map), the read arms of `ModbusService::call` resolve it to the default —
0 for ReadHoldingRegisters and ReadInputRegisters, false for ReadCoils —
and the call succeeds with exactly the `readSeq` values, without error. -/
theorem c1_unmapped_reads_default (st : SharedState) (addr count i : Nat) (hi : i < count) :
    (hmGet st.holding_registers ((addr + i) % 65536) = none →
      (readSeq st.holding_registers 0 addr count)[i]? = some 0) ∧
    (hmGet st.input_registers ((addr + i) % 65536) = none →
      (readSeq st.input_registers 0 addr count)[i]? = some 0) ∧
    (hmGet st.coils ((addr + i) % 65536) = none →
      (readSeq st.coils false addr count)[i]? = some false) ∧
    ModbusService.call st (.readHoldingRegisters addr count) =
      (st, .ok (.readHoldingRegisters (readSeq st.holding_registers 0 addr count))) ∧
    ModbusService.call st (.readInputRegisters addr count) =
      (st, .ok (.readInputRegisters (readSeq st.input_registers 0 addr count))) ∧
    ModbusService.call st (.readCoils addr count) =
      (st, .ok (.readCoils (readSeq st.coils false addr count))) := by
  refine ⟨fun h => ?_, fun h => ?_, fun h => ?_, rfl, rfl, rfl⟩ <;>
    rw [readSeq_getElem _ _ _ _ _ hi, h] <;> rfl

/-- C1 witness: on the empty store, position 0 of a 2-word read at address 5
is the default 0 (registers) and false (coils). -/
theorem c1_witness :
    (readSeq SharedState.new.holding_registers 0 5 2)[0]? = some 0 ∧
    (readSeq SharedState.new.coils false 5 2)[0]? = some false := by
  have h := c1_unmapped_reads_default SharedState.new 5 2 0 (by decide)
  exact ⟨h.1 rfl, h.2.2.1 rfl⟩

/-- C2: WriteSingleRegister then ReadHoldingRegisters of one word at the
same 16-bit address returns exactly the written value, and WriteSingleCoil
then ReadCoils likewise returns the written boolean. -/
theorem c2_read_after_write (st : SharedState) (addr value : Nat) (b : Bool)
    (haddr : addr < 65536) (_hvalue : value < 65536) :
    (ModbusService.call (ModbusService.call st (.writeSingleRegister addr value)).1
      (.readHoldingRegisters addr 1)).2 = .ok (.readHoldingRegisters [value]) ∧
    (ModbusService.call (ModbusService.call st (.writeSingleCoil addr b)).1
      (.readCoils addr 1)).2 = .ok (.readCoils [b]) := by
  constructor <;>
    simp [ModbusService.call, readSeq, List.range_succ, Nat.mod_eq_of_lt haddr,
      hmGet_insert_self]

/-- C2 witness: writing 1234 to register 7 then reading one word at 7
returns 1234; writing true to coil 7 then reading one coil at 7 returns
true. -/
theorem c2_witness :
    (ModbusService.call (ModbusService.call SharedState.new (.writeSingleRegister 7 1234)).1
      (.readHoldingRegisters 7 1)).2 = .ok (.readHoldingRegisters [1234]) ∧
    (ModbusService.call (ModbusService.call SharedState.new (.writeSingleCoil 7 true)).1
      (.readCoils 7 1)).2 = .ok (.readCoils [true]) :=
  c2_read_after_write SharedState.new 7 1234 true (by decide) (by decide)

/-- C4: the three read arms are total: for every store, address and count
(wrapping `addr + i` past the 16-bit space per release-mode u16 addition)
they return `Ok` with exactly `count` values, never an exception. -/
theorem c4_reads_never_fail (st : SharedState) (addr count : Nat) :
    (∃ vs, ModbusService.call st (.readHoldingRegisters addr count) =
      (st, .ok (.readHoldingRegisters vs)) ∧ vs.length = count) ∧
    (∃ vs, ModbusService.call st (.readInputRegisters addr count) =
      (st, .ok (.readInputRegisters vs)) ∧ vs.length = count) ∧
    (∃ vs, ModbusService.call st (.readCoils addr count) =
      (st, .ok (.readCoils vs)) ∧ vs.length = count) :=
  ⟨⟨_, rfl, readSeq_length _ _ _ _⟩, ⟨_, rfl, readSeq_length _ _ _ _⟩,
    ⟨_, rfl, readSeq_length _ _ _ _⟩⟩

/-- C6: every request outside the six supported kinds reaches the catch-all
arm of `ModbusService::call`: it answers the IllegalFunction exception and
returns the store exactly as it was (all three maps unchanged). -/
theorem c6_unsupported_illegal_function (st : SharedState) (req : Request)
    (h : req.supported = false) :
    ModbusService.call st req = (st, .error .illegalFunction) := by
  cases req <;> first | rfl | simp [Request.supported] at h

/-- C6 witness: a MaskWriteRegister request against the empty store yields
IllegalFunction and the unchanged store. -/
theorem c6_witness :
    ModbusService.call SharedState.new (.maskWriteRegister 1 2 3) =
      (SharedState.new, .error .illegalFunction) :=
  c6_unsupported_illegal_function SharedState.new (.maskWriteRegister 1 2 3) rfl

/-- C9: the startup seeding of `main`, performed before the simulation task
is spawned and before the server serves any connection, maps the configured
temperature register to 25000, the heater-state register to 0 and coil 0 to
false, and leaves every other address of all three maps unmapped. -/
theorem c9_startup_seed (cfg : ModbusConfig)
    (hne : cfg.registers.temperature_address ≠ cfg.registers.heater_state_address) :
    hmGet (initState cfg).holding_registers cfg.registers.temperature_address = some 25000 ∧
    hmGet (initState cfg).holding_registers cfg.registers.heater_state_address = some 0 ∧
    hmGet (initState cfg).coils 0 = some false ∧
    (∀ a, a ≠ cfg.registers.temperature_address → a ≠ cfg.registers.heater_state_address →
      hmGet (initState cfg).holding_registers a = none) ∧
    (∀ a, hmGet (initState cfg).input_registers a = none) ∧
    (∀ a, a ≠ 0 → hmGet (initState cfg).coils a = none) := by
  refine ⟨?_, ?_, ?_, fun a h1 h2 => ?_, fun a => rfl, fun a h0 => ?_⟩
  · rw [initState]
    rw [hmGet_insert_ne _ _ _ _ hne, hmGet_insert_self]
  · exact hmGet_insert_self _ _ _
  · exact hmGet_insert_self _ _ _
  · rw [initState]
    rw [hmGet_insert_ne _ _ _ _ h2, hmGet_insert_ne _ _ _ _ h1]
    rfl
  · rw [initState, hmGet_insert_ne _ _ _ _ h0]
    rfl

/-- C9 witness: under the default configuration the seeded store holds
25000 at 40001, 0 at 40002, false at coil 0, and nothing at 40003. -/
theorem c9_witness :
    hmGet (initState ModbusConfig.default).holding_registers 40001 = some 25000 ∧
    hmGet (initState ModbusConfig.default).holding_registers 40002 = some 0 ∧
    hmGet (initState ModbusConfig.default).coils 0 = some false ∧
    hmGet (initState ModbusConfig.default).holding_registers 40003 = none := by
  have h := c9_startup_seed ModbusConfig.default (by decide)
  exact ⟨h.1, h.2.1, h.2.2.1, h.2.2.2.1 40003 (by decide) (by decide)⟩

/-- C5: write requests commit and echo the committed state:
WriteSingleRegister stores the value at the address and responds with that
address and value (the value found in the store after the write);
WriteSingleCoil does the same on the coil map; WriteMultipleRegisters
upserts the contiguous run (here within the 16-bit space, so no wrap
collision) and responds with the start address and the count written. -/
theorem c5_writes_commit_and_echo (st : SharedState) (addr value : Nat) (b : Bool)
    (values : List Nat) (hlen : values.length < 65536) (hfit : addr + values.length ≤ 65536) :
    (hmGet (ModbusService.call st (.writeSingleRegister addr value)).1.holding_registers addr =
        some value ∧
      (ModbusService.call st (.writeSingleRegister addr value)).2 =
        .ok (.writeSingleRegister addr value)) ∧
    (hmGet (ModbusService.call st (.writeSingleCoil addr b)).1.coils addr = some b ∧
      (ModbusService.call st (.writeSingleCoil addr b)).2 = .ok (.writeSingleCoil addr b)) ∧
    ((∀ i, (hi : i < values.length) →
        hmGet (ModbusService.call st (.writeMultipleRegisters addr values)).1.holding_registers
          (addr + i) = some values[i]) ∧
      (ModbusService.call st (.writeMultipleRegisters addr values)).2 =
        .ok (.writeMultipleRegisters addr values.length)) := by
  refine ⟨⟨hmGet_insert_self _ _ _, rfl⟩, ⟨hmGet_insert_self _ _ _, rfl⟩, fun i hi => ?_, ?_⟩
  · have h := writeRegs_lookup values st.holding_registers addr 0 i (by omega) hi
    simpa using h
  · simp [ModbusService.call, Nat.mod_eq_of_lt hlen]

/-- C5 witness: on the empty store, WriteMultipleRegisters at 10 with
values [1, 2, 3] stores 2 at address 11 and answers start address 10 with
count 3; WriteSingleRegister 7 1234 stores and echoes 1234. -/
theorem c5_witness :
    hmGet (ModbusService.call SharedState.new
        (.writeMultipleRegisters 10 [1, 2, 3])).1.holding_registers 11 = some 2 ∧
    (ModbusService.call SharedState.new (.writeMultipleRegisters 10 [1, 2, 3])).2 =
      .ok (.writeMultipleRegisters 10 3) ∧
    hmGet (ModbusService.call SharedState.new
        (.writeSingleRegister 7 1234)).1.holding_registers 7 = some 1234 := by
  have h := c5_writes_commit_and_echo SharedState.new 10 1234 true [1, 2, 3]
    (by decide) (by decide)
  have h7 := c5_writes_commit_and_echo SharedState.new 7 1234 true [] (by decide) (by decide)
  refine ⟨?_, h.2.2.2, h7.1.1⟩
  have h11 := h.2.2.1 1 (by decide)
  simpa using h11

/-- C10: each request kind touches only its own footprint. The register
writes leave the input-register and coil maps equal and every other holding
address looking up unchanged; the coil write leaves the holding and input
maps equal and every other coil unchanged; the three reads return the store
as it was, all maps identical. -/
theorem c10_footprint (st : SharedState) (addr value count : Nat) (b : Bool)
    (values : List Nat) :
    ((ModbusService.call st (.writeSingleRegister addr value)).1.input_registers =
        st.input_registers ∧
      (ModbusService.call st (.writeSingleRegister addr value)).1.coils = st.coils ∧
      (∀ a, a ≠ addr →
        hmGet (ModbusService.call st (.writeSingleRegister addr value)).1.holding_registers a =
          hmGet st.holding_registers a)) ∧
    ((ModbusService.call st (.writeMultipleRegisters addr values)).1.input_registers =
        st.input_registers ∧
      (ModbusService.call st (.writeMultipleRegisters addr values)).1.coils = st.coils ∧
      (∀ a, (∀ j, j < values.length → a ≠ (addr + j % 65536) % 65536) →
        hmGet (ModbusService.call st (.writeMultipleRegisters addr values)).1.holding_registers
          a = hmGet st.holding_registers a)) ∧
    ((ModbusService.call st (.writeSingleCoil addr b)).1.holding_registers =
        st.holding_registers ∧
      (ModbusService.call st (.writeSingleCoil addr b)).1.input_registers =
        st.input_registers ∧
      (∀ a, a ≠ addr →
        hmGet (ModbusService.call st (.writeSingleCoil addr b)).1.coils a =
          hmGet st.coils a)) ∧
    (ModbusService.call st (.readHoldingRegisters addr count)).1 = st ∧
    (ModbusService.call st (.readInputRegisters addr count)).1 = st ∧
    (ModbusService.call st (.readCoils addr count)).1 = st := by
  refine ⟨⟨rfl, rfl, fun a ha => hmGet_insert_ne _ _ _ _ ha⟩,
    ⟨rfl, rfl, fun a ha => ?_⟩,
    ⟨rfl, rfl, fun a ha => hmGet_insert_ne _ _ _ _ ha⟩, rfl, rfl, rfl⟩
  have h := writeRegs_frame values st.holding_registers addr 0 a (by simpa using ha)
  simpa using h

/-- C10 witness: after WriteSingleRegister 7 1234 on the seeded default
store, the coil map is unchanged and holding address 40001 still reads
25000; ReadCoils returns the store as it was. -/
theorem c10_witness :
    (ModbusService.call (initState ModbusConfig.default)
        (.writeSingleRegister 7 1234)).1.coils = (initState ModbusConfig.default).coils ∧
    hmGet (ModbusService.call (initState ModbusConfig.default)
        (.writeSingleRegister 7 1234)).1.holding_registers 40001 =
      hmGet (initState ModbusConfig.default).holding_registers 40001 ∧
    (ModbusService.call (initState ModbusConfig.default) (.readCoils 0 4)).1 =
      initState ModbusConfig.default := by
  have h := c10_footprint (initState ModbusConfig.default) 7 1234 4 true []
  exact ⟨h.1.2.1, h.1.2.2 40001 (by decide), h.2.2.2.2.2⟩

/-- C7: a successful simulation tick is exactly the spec's sequence: it
reads coil 0 (default false), feeds that boolean to the model input
"heaterOn", steps by `dt = update_interval_ms / 1000` seconds, reads the
outputs "temperature" and "heaterStatus", and upserts their scaled
encodings into the holding registers at the configured temperature and
heater-state addresses, touching nothing else. -/
theorem c7_tick_sequence {σ : Type} (M : ModelInterface σ) (cfg : ModbusConfig)
    (st : SharedState) (m m1 m2 : σ) (T H : ℚ)
    (hset : M.set_bool_input m "heaterOn" ((hmGet st.coils 0).getD false) = .ok m1)
    (hstep : M.step m1 ((cfg.update_interval_ms : ℚ) / 1000) = .ok m2)
    (htemp : M.get_output m2 "temperature" = .ok T)
    (hheat : M.get_output m2 "heaterStatus" = .ok H)
    (hne : cfg.registers.temperature_address ≠ cfg.registers.heater_state_address) :
    simulationTick M cfg st m =
      .ok ({ st with holding_registers := hmInsert (hmInsert st.holding_registers cfg.registers.temperature_address (encodeScaled T)) cfg.registers.heater_state_address (encodeScaled H) }, m2) ∧
    hmGet (hmInsert (hmInsert st.holding_registers cfg.registers.temperature_address
        (encodeScaled T)) cfg.registers.heater_state_address (encodeScaled H))
      cfg.registers.temperature_address = some (encodeScaled T) ∧
    hmGet (hmInsert (hmInsert st.holding_registers cfg.registers.temperature_address
        (encodeScaled T)) cfg.registers.heater_state_address (encodeScaled H))
      cfg.registers.heater_state_address = some (encodeScaled H) ∧
    (∀ a, a ≠ cfg.registers.temperature_address → a ≠ cfg.registers.heater_state_address →
      hmGet (hmInsert (hmInsert st.holding_registers cfg.registers.temperature_address
          (encodeScaled T)) cfg.registers.heater_state_address (encodeScaled H)) a =
        hmGet st.holding_registers a) := by
  refine ⟨?_, ?_, hmGet_insert_self _ _ _, fun a h1 h2 => ?_⟩
  · simp [simulationTick, hset, hstep, htemp, hheat, bind, Except.bind, pure, Except.pure]
  · rw [hmGet_insert_ne _ _ _ _ hne, hmGet_insert_self]
  · rw [hmGet_insert_ne _ _ _ _ h2, hmGet_insert_ne _ _ _ _ h1]

/-- C7 witness: with the all-succeeding constant model (300 K, status 1)
under the default configuration, the tick on the seeded store produces
exactly the store with the two scaled upserts and the stepped model. -/
theorem c7_witness :
    simulationTick constModel ModbusConfig.default (initState ModbusConfig.default) () =
      .ok ({ initState ModbusConfig.default with holding_registers := hmInsert (hmInsert (initState ModbusConfig.default).holding_registers 40001 (encodeScaled 300)) 40002 (encodeScaled 1) }, ()) := by
  have h := c7_tick_sequence constModel ModbusConfig.default
    (initState ModbusConfig.default) () () () 300 1 rfl rfl rfl rfl (by decide)
  exact h.1

/-- C8's loop-level content, evaluated at the failing input: when the model
step fails on the first tick, the tick aborts with that error and the whole
remaining run returns it — no tick is skipped or retried and no register is
published afterward. (The claim's further conjunct, that this stops the
whole service, is about how the panic crosses the spawned-task boundary;
see the result notes.) -/
theorem c8_step_failure_fatal (st : SharedState) (n : Nat) :
    simulationTick failingStepModel ModbusConfig.default st () =
      .error "Failed to step simulation" ∧
    simulationRun failingStepModel ModbusConfig.default (n + 1) st () =
      .error "Failed to step simulation" := by
  exact ⟨rfl, rfl⟩

/-- C3 counterexample: the loop's cast `(x * 100.0) as u16` truncates, it
does not round: at value 0.019 the code stores 1 while `round(0.019 * 100)`
is 2. -/
theorem c3_counterexample : encodeScaled (19 / 1000) ≠ specRoundEncode (19 / 1000) := by
  have he : encodeScaled (19 / 1000) = 1 := by
    norm_num [encodeScaled]
  have hr : specRoundEncode (19 / 1000) = 2 := by
    norm_num [specRoundEncode, round_eq]
    decide
  rw [he, hr]
  decide

/-- C3 as amended: the encoding is the truncating saturating cast
`encodeScaled`, and for every representable value `k / 100` with
`k ≤ 65535` (the 0.00–655.35 range) decode of encode gives the value back
exactly, in particular within the 0.01 tolerance. -/
theorem c3_scaling_roundtrip (k : Nat) (hk : k ≤ 65535) :
    decodeScaled (encodeScaled ((k : ℚ) / 100)) = (k : ℚ) / 100 := by
  have h1 : ((k : ℚ) / 100) * 100 = (k : ℚ) := by field_simp
  rw [encodeScaled, h1, Int.floor_natCast, Int.toNat_natCast, min_eq_right hk]
  rfl

/-- C3 witness: the seeded temperature 250.00 K survives the round trip. -/
theorem c3_witness :
    decodeScaled (encodeScaled (((25000 : Nat) : ℚ) / 100)) = ((25000 : Nat) : ℚ) / 100 :=
  c3_scaling_roundtrip 25000 (by norm_num)

end ModbusServer
